import Mathlib

/-!
Shallow embedding of the core of the velar-ui/cli repository:
the retrying HTTP client (src/services/HttpService.ts) and the
transactional component file-batch writer (ComponentService,
src/unnamed/part_007), together with the per-component add loop.

Filesystem state is modelled as an association list from paths to
string contents; time (sleeps) is modelled by recording the delay
values the code would pass to `sleep`; the network backend and the
interactive prompt are modelled as explicit function parameters.
-/

namespace Velar

/-! ## HTTP client (src/services/HttpService.ts) -/

/-- Retry options, mirroring `FetchOptions` after defaults are filled in
(`DEFAULT_RETRY_OPTIONS`).  Numeric fields are modelled as `Nat`
(milliseconds / multiplier; the defaults are integers). -/
structure RetryOptions where
  maxRetries : Nat
  initialDelay : Nat
  backoffFactor : Nat
  maxDelay : Nat
  retryableStatusCodes : List Nat
  timeout : Nat
deriving Repr, DecidableEq

/-- `DEFAULT_RETRY_OPTIONS` from HttpService.ts. -/
def defaultRetryOptions : RetryOptions :=
  { maxRetries := 3
    initialDelay := 1000
    backoffFactor := 2
    maxDelay := 10000
    retryableStatusCodes := [408, 429, 500, 502, 503, 504]
    timeout := 30000 }

/-- `calculateDelay(attempt, initialDelay, backoffFactor, maxDelay)`:
`Math.min(initialDelay * Math.pow(backoffFactor, attempt), maxDelay)`. -/
def calculateDelay (attempt initialDelay backoffFactor maxDelay : Nat) : Nat :=
  min (initialDelay * backoffFactor ^ attempt) maxDelay

/-- `isRetryableStatus(status, retryableStatusCodes)`:
`retryableStatusCodes.includes(status)`. -/
def isRetryableStatus (status : Nat) (retryableStatusCodes : List Nat) : Bool :=
  retryableStatusCodes.contains status

/-- A platform `Response`, restricted to the fields the client inspects:
`status`, `ok`, and the behaviour of the `json()` / `text()` body
accessors (which are platform calls that either yield the body or
throw). -/
structure Response where
  status : Nat
  ok : Bool
  body : String
  /-- does `response.json()` succeed -/
  jsonValid : Bool
  /-- does `response.text()` succeed -/
  textValid : Bool
deriving Repr, DecidableEq

/-- Outcome of one `fetchWithTimeout` call (one physical attempt), as seen
by the retry loop: a response, a timeout (`NetworkError` whose message
contains "timeout", produced by the `AbortError` branch of
`fetchWithTimeout`), or another transport-level error. -/
inductive AttemptOutcome where
  | response (r : Response)
  | timeoutError (msg : String)
  | transportError (msg : String)
deriving Repr, DecidableEq

/-- A backend assigns to each 0-based attempt index the outcome of the
physical request made on that attempt. -/
def Backend := Nat → AttemptOutcome

/-- Observable result of one `HttpService.fetch` call: the returned
response or the thrown `NetworkError` (`.error` carries the message),
plus the number of physical attempts performed and the list of delays
passed to `sleep` between attempts. -/
structure FetchRun where
  result : Except String Response
  attempts : Nat
  delays : List Nat
deriving Repr

/-- The retry loop of `HttpService.fetch`.  `fuel` is the number of
remaining loop iterations (`maxRetries + 1 - attempt` at the call from
`fetch`); the `fuel = 0` case corresponds to the post-loop `throw`,
which is unreachable for the actual call.  Each entered iteration
performs exactly one physical attempt.  A retryable non-ok response on
the last attempt raises `NetworkError` inside the `try`; its message
does not contain "timeout", and the catch rethrows it unchanged, so it
is modelled as a direct error. -/
def fetchLoop (o : RetryOptions) (backend : Backend) : Nat → Nat → FetchRun
  | 0, _ =>
    { result := Except.error "Request failed: Unknown error"
      attempts := 0, delays := [] }
  | fuel + 1, attempt =>
    let retryDelay := calculateDelay attempt o.initialDelay o.backoffFactor o.maxDelay
    match backend attempt with
    | AttemptOutcome.response r =>
      if r.ok || !(isRetryableStatus r.status o.retryableStatusCodes) then
        { result := Except.ok r, attempts := 1, delays := [] }
      else if attempt = o.maxRetries then
        { result := Except.error
            ("Request failed after " ++ toString (o.maxRetries + 1) ++ " attempts: "
              ++ toString r.status)
          attempts := 1, delays := [] }
      else
        let rest := fetchLoop o backend fuel (attempt + 1)
        { result := rest.result, attempts := rest.attempts + 1
          delays := retryDelay :: rest.delays }
    | AttemptOutcome.timeoutError msg =>
      if attempt = o.maxRetries then
        { result := Except.error msg, attempts := 1, delays := [] }
      else
        let rest := fetchLoop o backend fuel (attempt + 1)
        { result := rest.result, attempts := rest.attempts + 1
          delays := retryDelay :: rest.delays }
    | AttemptOutcome.transportError msg =>
      if attempt = o.maxRetries then
        { result := Except.error
            ("Request failed after " ++ toString (o.maxRetries + 1) ++ " attempts: " ++ msg)
          attempts := 1, delays := [] }
      else
        let rest := fetchLoop o backend fuel (attempt + 1)
        { result := rest.result, attempts := rest.attempts + 1
          delays := retryDelay :: rest.delays }

/-- `HttpService.fetch`: run the loop for attempts `0 .. maxRetries`. -/
def fetch (o : RetryOptions) (backend : Backend) : FetchRun :=
  fetchLoop o backend (o.maxRetries + 1) 0

/-- `HttpService.fetchJson`: fetch, convert any non-ok response to a
`NetworkError`, then parse the body as JSON, converting a parse failure
to a `NetworkError`.  The parsed value is modelled as the body string. -/
def fetchJson (o : RetryOptions) (backend : Backend) : Except String String :=
  match (fetch o backend).result with
  | Except.error e => Except.error e
  | Except.ok r =>
    if !r.ok then
      Except.error ("Failed to fetch JSON: " ++ toString r.status)
    else if r.jsonValid then
      Except.ok r.body
    else
      Except.error "Failed to parse JSON"

/-- `HttpService.fetchText`: fetch, convert any non-ok response to a
`NetworkError`, then read the body text, converting a read failure to a
`NetworkError`. -/
def fetchText (o : RetryOptions) (backend : Backend) : Except String String :=
  match (fetch o backend).result with
  | Except.error e => Except.error e
  | Except.ok r =>
    if !r.ok then
      Except.error ("Failed to fetch text: " ++ toString r.status)
    else if r.textValid then
      Except.ok r.body
    else
      Except.error "Failed to read text"

/-! ## Filesystem model

The filesystem is an association list from paths to string contents
(`fs.readFile`/`fs.writeFile` in the source operate on whole utf-8
contents).  A path maps to at most one entry; `fsWrite` replaces in
place, `fsErase` removes every entry at the path. -/

/-- Filesystem state: association list path ↦ content. -/
abbrev FS := List (String × String)

/-- Content at a path, if a file exists there. -/
def fsLookup (fs : FS) (p : String) : Option String :=
  match fs with
  | [] => none
  | (q, c) :: rest => if q = p then some c else fsLookup rest p

/-- `fileExists`. -/
def fsExists (fs : FS) (p : String) : Bool :=
  (fsLookup fs p).isSome

/-- `writeFile` (creates or overwrites). -/
def fsWrite (fs : FS) (p c : String) : FS :=
  match fs with
  | [] => [(p, c)]
  | (q, d) :: rest => if q = p then (p, c) :: rest else (q, d) :: fsWrite rest p c

/-- `fsExtra.remove` (no-op if absent). -/
def fsErase (fs : FS) (p : String) : FS :=
  match fs with
  | [] => []
  | (q, d) :: rest => if q = p then fsErase rest p else (q, d) :: fsErase rest p

/-! ## Transactional batch writer (ComponentService.applyFileBatch) -/

/-- A planned file operation (`PlannedFile` in the source). -/
structure PlannedFile where
  componentName : String
  filePath : String
  fileType : String
  destPath : String
  content : String
  existedBefore : Bool
deriving Repr, DecidableEq

/-- The temp sibling path used for staging: `destPath + ".velar-tmp"`. -/
def tempPath (dest : String) : String := dest ++ ".velar-tmp"

/-- Modelled from the spec: the backup-file naming convention of
`createFileBackup`/`restoreFileBackup`/`deleteFileBackup`
(src/utils/file-helper, not present in the sources): a sibling path
derived from the destination path by a fixed suffix (§6: "the implicit
temp-file suffix and backup-file naming convention"). -/
def backupPath (dest : String) : String := dest ++ ".velar-backup"

/-- Modelled from the spec: `createFileBackup` (src/utils/file-helper,
not present in the sources) "copies the current destination-path
content aside to a backup path" (§4.2 step 2); it reports failure
(a falsy return in the caller) when there is nothing to copy. -/
def createFileBackup (fs : FS) (dest : String) : Option FS :=
  match fsLookup fs dest with
  | some c => some (fsWrite fs (backupPath dest) c)
  | none => none

/-- Modelled from the spec: `restoreFileBackup` (src/utils/file-helper,
not present in the sources) "restores its backup if one exists" (§4.2
step 3) and leaves no backup artifact behind (§4.2 invariant): the
backup file is moved back onto the destination; without a backup it is
a no-op. -/
def restoreFileBackup (fs : FS) (dest : String) : FS :=
  match fsLookup fs (backupPath dest) with
  | some c => fsErase (fsWrite fs dest c) (backupPath dest)
  | none => fs

/-- Modelled from the spec: `deleteFileBackup` (src/utils/file-helper,
not present in the sources) deletes the backup file for a destination
(§4.2 step 4). -/
def deleteFileBackup (fs : FS) (dest : String) : FS :=
  fsErase fs (backupPath dest)

/-- Fault model: which filesystem primitives throw, by path.
`writeFails` applies to the staged temp path, `backupFails` to the
destination whose backup is taken, `moveFails` to the destination of
the commit-phase move. -/
structure Faults where
  writeFails : String → Bool
  backupFails : String → Bool
  moveFails : String → Bool

/-- The fault-free environment. -/
def noFaults : Faults :=
  { writeFails := fun _ => false
    backupFails := fun _ => false
    moveFails := fun _ => false }

/-- Staging loop of `applyFileBatch` (first `for` over `plannedFiles`):
write each operation's content to its temp path, accumulating
`tempFiles`.  On a thrown write the error carries the filesystem state
and the temp files staged so far (the failed path was not pushed). -/
def stagePhase (flt : Faults) :
    FS → List PlannedFile → List String → Except (String × FS × List String) (FS × List String)
  | fs, [], temps => Except.ok (fs, temps)
  | fs, f :: rest, temps =>
    let tp := tempPath f.destPath
    if flt.writeFails tp then
      Except.error ("EIO: write " ++ tp, fs, temps)
    else
      stagePhase flt (fsWrite fs tp f.content) rest (temps ++ [tp])

/-- Backup loop of `applyFileBatch` (second `for`): for every operation
with `existedBefore`, take a backup of the destination; a falsy
`createFileBackup` result throws. -/
def backupPhase (flt : Faults) : FS → List PlannedFile → Except (String × FS) FS
  | fs, [] => Except.ok fs
  | fs, f :: rest =>
    if f.existedBefore then
      if flt.backupFails f.destPath then
        Except.error ("Failed to create backup for " ++ f.destPath, fs)
      else
        match createFileBackup fs f.destPath with
        | none => Except.error ("Failed to create backup for " ++ f.destPath, fs)
        | some fs1 => backupPhase flt fs1 rest
    else
      backupPhase flt fs rest

/-- Commit loop of `applyFileBatch` (third `for`):
`fsExtra.move(tempPath, destPath, overwrite)` — rename the temp file
onto the destination.  A missing source throws; an injected move fault
throws with the destination untouched. -/
def commitPhase (flt : Faults) : FS → List PlannedFile → Except (String × FS) FS
  | fs, [] => Except.ok fs
  | fs, f :: rest =>
    let tp := tempPath f.destPath
    match fsLookup fs tp with
    | none => Except.error ("ENOENT: move " ++ tp, fs)
    | some c =>
      if flt.moveFails f.destPath then
        Except.error ("EIO: move " ++ f.destPath, fs)
      else
        commitPhase flt (fsErase (fsWrite fs f.destPath c) tp) rest

/-- Success-path cleanup: `backupTargets.forEach(deleteFileBackup)` —
the backup targets are exactly the destinations of the operations with
`existedBefore`. -/
def cleanupBackups (fs : FS) (files : List PlannedFile) : FS :=
  files.foldl
    (fun acc f => if f.existedBefore then deleteFileBackup acc f.destPath else acc) fs

/-- One step of the `catch`-block rollback over a planned operation:
remove the destination if it exists, then, when `existedBefore`,
restore the backup. -/
def rollbackOne (fs : FS) (f : PlannedFile) : FS :=
  let fs1 := if fsExists fs f.destPath then fsErase fs f.destPath else fs
  if f.existedBefore then restoreFileBackup fs1 f.destPath else fs1

/-- The `catch` block of `applyFileBatch`: roll back every destination,
then delete the temp files that still exist. -/
def rollback (fs : FS) (files : List PlannedFile) (temps : List String) : FS :=
  let fs1 := files.foldl rollbackOne fs
  temps.foldl (fun acc tp => if fsExists acc tp then fsErase acc tp else acc) fs1

/-- `ComponentService.applyFileBatch` (src/unnamed/part_007): stage,
backup, commit, cleanup; on any thrown error run the rollback and
rethrow.  `.ok fs` is a normal return with final filesystem `fs`;
`.error (msg, fs)` is a rethrown error after the rollback completed,
with the post-rollback filesystem. -/
def applyFileBatch (flt : Faults) (fs : FS) (files : List PlannedFile) :
    Except (String × FS) FS :=
  match stagePhase flt fs files [] with
  | Except.error (msg, fs1, temps) => Except.error (msg, rollback fs1 files temps)
  | Except.ok (fs1, temps) =>
    match backupPhase flt fs1 files with
    | Except.error (msg, fs2) => Except.error (msg, rollback fs2 files temps)
    | Except.ok fs2 =>
      match commitPhase flt fs2 files with
      | Except.error (msg, fs3) => Except.error (msg, rollback fs3 files temps)
      | Except.ok fs3 => Except.ok (cleanupBackups fs3 files)

/-! ## Component add loop (ComponentService, src/unnamed/part_007) -/

/-- One file entry of a component's registry metadata
(`VelarComponentFile`). -/
structure CompFile where
  path : String
  type : String
deriving Repr, DecidableEq

/-- Component metadata (`VelarComponentMeta`), restricted to the fields
the add loop reads. -/
structure CompMeta where
  name : String
  files : List CompFile
deriving Repr, DecidableEq

/-- The user's conflict-resolution choice (`handleFileConflict`). -/
inductive Choice where
  | skip
  | overwrite
  | cancel
deriving Repr, DecidableEq

/-- The registry service collaborator (`IRegistryService`): each call
either yields a value or throws with a message. -/
structure Reg where
  fetchComponent : String → Except String CompMeta
  resolveDependencies : CompMeta → Except String (List CompMeta)
  fetchFile : String → String → Except String String

/-- Environment of one `ComponentService` instance: the registry, the
configured components path (`configManager.getComponentsPath()`), the
interactive prompt (`handleFileConflict`, keyed by the conflicting
file's registry path), the filesystem fault model, and the effect of
`injectComponentJs` on the filesystem for one auto-imported component
(`autoImportJs` catches every error, so it is modelled as total). -/
structure Env where
  reg : Reg
  componentsPath : String
  choose : String → Choice
  flt : Faults
  inject : FS → String → FS

/-- `path.join` for the normal-form relative segments used here. -/
def pathJoin (a b : String) : String := a ++ "/" ++ b

/-- `ComponentService.getDestinationPath`: switch on the file-kind tag. -/
def getDestinationPath (component : CompMeta) (file : CompFile)
    (componentsPath : String) : String :=
  match file.type with
  | "blade" => pathJoin componentsPath (component.name ++ ".blade.php")
  | "js" => pathJoin "resources/js/ui" (component.name ++ ".js")
  | "css" => pathJoin "resources/css/components" (component.name ++ ".css")
  | _ => pathJoin componentsPath file.path

/-- Result accumulator of an add operation (`AddResult`): added and
skipped identifiers, and failed (name, error-message) pairs. -/
structure AddResult where
  added : List String
  skipped : List String
  failed : List (String × String)
deriving Repr, DecidableEq

/-- Outcome of the planning loop of `addComponent` (the loop over
`componentsToAdd` and their files): a `process.exit`, a thrown error,
or the accumulated planned operations and skipped identifiers. -/
inductive PlanOut where
  | exit (code : Nat)
  | thrown (msg : String)
  | ok (planned : List PlannedFile) (skipped : List String)
deriving Repr, DecidableEq

/-- Inner planning loop over one component's files: check existence,
resolve a conflict through the prompt (`skip` records and continues,
`cancel` is `process.exit(0)`, `overwrite` falls through), then fetch
the content and append the planned operation. -/
def planFiles (env : Env) (fs : FS) (comp : CompMeta) :
    List CompFile → List PlannedFile → List String → PlanOut
  | [], planned, skipped => PlanOut.ok planned skipped
  | file :: rest, planned, skipped =>
    let dest := getDestinationPath comp file env.componentsPath
    let existedBefore := fsExists fs dest
    let fetchAndPlan : PlanOut :=
      match env.reg.fetchFile comp.name file.path with
      | Except.error e => PlanOut.thrown e
      | Except.ok content =>
        planFiles env fs comp rest
          (planned ++ [{ componentName := comp.name, filePath := file.path
                         fileType := file.type, destPath := dest
                         content := content, existedBefore := existedBefore }])
          skipped
    if existedBefore then
      match env.choose file.path with
      | Choice.skip =>
        planFiles env fs comp rest planned (skipped ++ [comp.name ++ "/" ++ file.path])
      | Choice.cancel => PlanOut.exit 0
      | Choice.overwrite => fetchAndPlan
    else
      fetchAndPlan

/-- Outer planning loop over the resolved components. -/
def planComponents (env : Env) (fs : FS) :
    List CompMeta → List PlannedFile → List String → PlanOut
  | [], planned, skipped => PlanOut.ok planned skipped
  | comp :: rest, planned, skipped =>
    match planFiles env fs comp comp.files planned skipped with
    | PlanOut.exit c => PlanOut.exit c
    | PlanOut.thrown e => PlanOut.thrown e
    | PlanOut.ok planned1 skipped1 => planComponents env fs rest planned1 skipped1

/-- First-occurrence deduplication, mirroring insertion order of a JS
`Set`. -/
def firstDedup : List String → List String
  | [] => []
  | x :: xs => x :: (firstDedup xs).filter (fun y => y ≠ x)

/-- The component names whose js files were added, in `Set` insertion
order (`jsComponents` in the source). -/
def jsComponents (planned : List PlannedFile) : List String :=
  firstDedup ((planned.filter (fun f => f.fileType = "js")).map (fun f => f.componentName))

/-- Outcome of `addComponent` for one requested component. -/
inductive CompOut where
  | exit (code : Nat) (fs : FS)
  | thrown (msg : String) (fs : FS)
  | done (r : AddResult) (fs : FS)
deriving Repr, DecidableEq

/-- `ComponentService.addComponent` (src/unnamed/part_007): fetch the
metadata, resolve dependencies, plan every file (conflict handling
included), then apply the batch; on batch success record every planned
file as added and auto-import the js components, on batch failure
record every planned file as failed with the error message. -/
def addComponent (env : Env) (fs : FS) (name : String) : CompOut :=
  match env.reg.fetchComponent name with
  | Except.error e => CompOut.thrown e fs
  | Except.ok component =>
    match env.reg.resolveDependencies component with
    | Except.error e => CompOut.thrown e fs
    | Except.ok comps =>
      match planComponents env fs comps [] [] with
      | PlanOut.exit c => CompOut.exit c fs
      | PlanOut.thrown e => CompOut.thrown e fs
      | PlanOut.ok planned skipped =>
        if planned.isEmpty then
          CompOut.done { added := [], skipped := skipped, failed := [] } fs
        else
          match applyFileBatch env.flt fs planned with
          | Except.ok fs1 =>
            let fs2 := (jsComponents planned).foldl env.inject fs1
            CompOut.done
              { added := planned.map (fun f => f.componentName ++ "/" ++ f.filePath)
                skipped := skipped, failed := [] } fs2
          | Except.error (msg, fs1) =>
            CompOut.done
              { added := [], skipped := skipped
                failed := planned.map
                  (fun f => (f.componentName ++ "/" ++ f.filePath, msg)) } fs1

/-- Outcome of `addComponents` for a list of requested components. -/
inductive RunOut where
  | exit (code : Nat) (fs : FS)
  | done (r : AddResult) (fs : FS)
deriving Repr, DecidableEq

/-- `ComponentService.addComponents` (src/unnamed/part_007): process the
requested components in order; a thrown `addComponent` is caught and
recorded as a failed entry for that component; `process.exit` is not an
exception and terminates the whole run. -/
def addComponents (env : Env) (fs : FS) :
    List String → AddResult → RunOut
  | [], acc => RunOut.done acc fs
  | name :: rest, acc =>
    match addComponent env fs name with
    | CompOut.exit c fs1 => RunOut.exit c fs1
    | CompOut.thrown e fs1 =>
      addComponents env fs1 rest
        { added := acc.added, skipped := acc.skipped
          failed := acc.failed ++ [(name, e)] }
    | CompOut.done r fs1 =>
      addComponents env fs1 rest
        { added := acc.added ++ r.added, skipped := acc.skipped ++ r.skipped
          failed := acc.failed ++ r.failed }

/-- The empty result accumulator. -/
def emptyResult : AddResult := { added := [], skipped := [], failed := [] }

/-! ## Concrete inputs used in counterexamples and witnesses -/

/-- A backend that answers 500 on every attempt. -/
def b500 : Backend := fun _ =>
  AttemptOutcome.response { status := 500, ok := false, body := "", jsonValid := true, textValid := true }

/-- A backend that answers 404 (non-retryable) on every attempt. -/
def b404 : Backend := fun _ =>
  AttemptOutcome.response { status := 404, ok := false, body := "", jsonValid := true, textValid := true }

/-- A backend that answers 200 with a body that fails JSON parsing. -/
def b200badJson : Backend := fun _ =>
  AttemptOutcome.response { status := 200, ok := true, body := "nope", jsonValid := false, textValid := true }

/-- Options with small delays (initialDelay 10, factor 2), as in the
spec's worked example. -/
def o10 : RetryOptions :=
  { maxRetries := 3, initialDelay := 10, backoffFactor := 2, maxDelay := 10000
    retryableStatusCodes := [408, 429, 500, 502, 503, 504], timeout := 30000 }

/-- A planned operation over a pre-existing destination `"a"`. -/
def c1File : PlannedFile :=
  { componentName := "button", filePath := "button.blade.php", fileType := "blade"
    destPath := "a", content := "new", existedBefore := true }

/-- Faults making the staging write of `c1File` fail. -/
def c1Faults : Faults :=
  { writeFails := fun p => p == "a.velar-tmp"
    backupFails := fun _ => false
    moveFails := fun _ => false }

/-- An operation whose destination is another operation's temp path. -/
def c9A : PlannedFile :=
  { componentName := "c", filePath := "f1", fileType := "t"
    destPath := "x.velar-tmp", content := "ca", existedBefore := false }

/-- The operation whose temp path is `c9A`'s destination. -/
def c9B : PlannedFile :=
  { componentName := "c", filePath := "f2", fileType := "t"
    destPath := "x", content := "cb", existedBefore := false }

/-- An ordinary two-operation batch with separated paths. -/
def w9A : PlannedFile :=
  { componentName := "card", filePath := "card.blade.php", fileType := "blade"
    destPath := "views/card.blade.php", content := "newcard", existedBefore := true }

/-- Second operation of the separated witness batch (fresh file). -/
def w9B : PlannedFile :=
  { componentName := "card", filePath := "card.js", fileType := "js"
    destPath := "resources/js/ui/card.js", content := "newjs", existedBefore := false }

/-- A registry with a single-blade component per name, used in
add-loop witnesses. -/
def wReg : Reg :=
  { fetchComponent := fun n => Except.ok { name := n, files := [{ path := n ++ ".blade.php", type := "blade" }] }
    resolveDependencies := fun c => Except.ok [c]
    fetchFile := fun _ _ => Except.ok "content" }

/-- A registry whose metadata fetch always throws. -/
def wRegDown : Reg :=
  { fetchComponent := fun _ => Except.error "registry unreachable"
    resolveDependencies := fun c => Except.ok [c]
    fetchFile := fun _ _ => Except.ok "content" }

/-- Environment whose user always answers `cancel`. -/
def wEnvCancel : Env :=
  { reg := wReg, componentsPath := "views", choose := fun _ => Choice.cancel
    flt := noFaults, inject := fun fs _ => fs }

/-- Environment over the unreachable registry. -/
def wEnvDown : Env :=
  { reg := wRegDown, componentsPath := "views", choose := fun _ => Choice.overwrite
    flt := noFaults, inject := fun fs _ => fs }

/-- Environment with a healthy registry and a commit-phase move fault on
the planned destination. -/
def wEnvMoveFail : Env :=
  { reg := wReg, componentsPath := "views"
    choose := fun _ => Choice.overwrite
    flt := { writeFails := fun _ => false, backupFails := fun _ => false
             moveFails := fun p => p == "views/a.blade.php" }
    inject := fun fs _ => fs }

/-- A backend that on every attempt returns a response whose status is
retryable and not ok. -/
def alwaysRetryable (o : RetryOptions) (b : Backend) : Prop :=
  ∀ k, ∃ r, b k = AttemptOutcome.response r ∧ r.ok = false ∧
    isRetryableStatus r.status o.retryableStatusCodes = true

/-- The three paths an operation can touch. -/
def opPaths (f : PlannedFile) : List String :=
  [f.destPath, tempPath f.destPath, backupPath f.destPath]

/-- Two operations touch disjoint path sets. -/
abbrev OpDisj (f g : PlannedFile) : Prop :=
  ∀ p ∈ opPaths f, ∀ q ∈ opPaths g, p ≠ q

/-! ## Filesystem lemmas -/

theorem fsLookup_fsWrite_self (fs : FS) (p c : String) :
    fsLookup (fsWrite fs p c) p = some c := by
  induction fs with
  | nil => simp [fsWrite, fsLookup]
  | cons hd tl ih =>
    obtain ⟨q, d⟩ := hd
    by_cases h : q = p <;> simp [fsWrite, fsLookup, h, ih]

theorem fsLookup_fsWrite_ne (fs : FS) (p c r : String) (h : r ≠ p) :
    fsLookup (fsWrite fs p c) r = fsLookup fs r := by
  induction fs with
  | nil => simp [fsWrite, fsLookup, Ne.symm h]
  | cons hd tl ih =>
    obtain ⟨q, d⟩ := hd
    by_cases hq : q = p
    · subst hq
      simp [fsWrite, fsLookup, Ne.symm h]
    · simp [fsWrite, fsLookup, hq, ih]

theorem fsLookup_fsErase_self (fs : FS) (p : String) :
    fsLookup (fsErase fs p) p = none := by
  induction fs with
  | nil => simp [fsErase, fsLookup]
  | cons hd tl ih =>
    obtain ⟨q, d⟩ := hd
    by_cases h : q = p <;> simp [fsErase, fsLookup, h, ih]

theorem fsLookup_fsErase_ne (fs : FS) (p r : String) (h : r ≠ p) :
    fsLookup (fsErase fs p) r = fsLookup fs r := by
  induction fs with
  | nil => simp [fsErase]
  | cons hd tl ih =>
    obtain ⟨q, d⟩ := hd
    by_cases hq : q = p
    · subst hq
      simp [fsErase, fsLookup, Ne.symm h, ih]
    · simp [fsErase, fsLookup, hq, ih]

theorem fsLookup_none_fsErase (fs : FS) (p r : String)
    (h : fsLookup fs r = none) : fsLookup (fsErase fs p) r = none := by
  by_cases hr : r = p
  · subst hr; exact fsLookup_fsErase_self fs r
  · rw [fsLookup_fsErase_ne fs p r hr]; exact h

/-! ## Fetch loop lemmas -/

theorem fetchLoop_attempts_pos (o : RetryOptions) (b : Backend) (n a : Nat) :
    1 ≤ (fetchLoop o b (n + 1) a).attempts := by
  simp only [fetchLoop]
  cases b a with
  | response r =>
    dsimp only
    split
    · simp
    · split <;> simp
  | timeoutError msg =>
    dsimp only
    split <;> simp
  | transportError msg =>
    dsimp only
    split <;> simp

theorem fetchLoop_attempts_le (o : RetryOptions) (b : Backend) :
    ∀ fuel a, (fetchLoop o b fuel a).attempts ≤ fuel := by
  intro fuel
  induction fuel with
  | zero => intro a; simp [fetchLoop]
  | succ n ih =>
    intro a
    simp only [fetchLoop]
    cases b a with
    | response r =>
      dsimp only
      split
      · simp
      · split
        · simp
        · simpa using Nat.succ_le_succ (ih (a + 1))
    | timeoutError msg =>
      dsimp only
      split
      · simp
      · simpa using Nat.succ_le_succ (ih (a + 1))
    | transportError msg =>
      dsimp only
      split
      · simp
      · simpa using Nat.succ_le_succ (ih (a + 1))

theorem fetchLoop_alwaysRetryable (o : RetryOptions) (b : Backend)
    (h : alwaysRetryable o b) :
    ∀ fuel a, a + fuel = o.maxRetries + 1 →
      (fetchLoop o b fuel a).attempts = fuel ∧
      ∃ e, (fetchLoop o b fuel a).result = Except.error e := by
  intro fuel
  induction fuel with
  | zero =>
    intro a ha
    exact ⟨rfl, "Request failed: Unknown error", rfl⟩
  | succ n ih =>
    intro a ha
    obtain ⟨r, hb, hok, hret⟩ := h a
    have hguard : (r.ok || !(isRetryableStatus r.status o.retryableStatusCodes)) = false := by
      simp [hok, hret]
    by_cases han : a = o.maxRetries
    · have hn : n = 0 := by omega
      subst hn
      simp only [fetchLoop, hb, hguard]
      simp [han]
    · have hn : a + 1 + n = o.maxRetries + 1 := by omega
      obtain ⟨iha, ihe⟩ := ih (a + 1) hn
      simp only [fetchLoop, hb, hguard]
      simp [han, iha, ihe]

theorem fetchLoop_delays_getD (o : RetryOptions) (b : Backend) :
    ∀ fuel a i, i < (fetchLoop o b fuel a).delays.length →
      (fetchLoop o b fuel a).delays.getD i 0 =
        calculateDelay (a + i) o.initialDelay o.backoffFactor o.maxDelay := by
  intro fuel
  induction fuel with
  | zero =>
    intro a i hi
    simp [fetchLoop] at hi
  | succ n ih =>
    intro a i hi
    simp only [fetchLoop] at hi ⊢
    cases hb : b a with
    | response r =>
      rw [hb] at hi
      dsimp only at hi ⊢
      by_cases hg : (r.ok || !(isRetryableStatus r.status o.retryableStatusCodes)) = true
      · simp [hg] at hi
      · by_cases han : a = o.maxRetries
        · simp [hg, han] at hi
        · simp only [hg, han, if_neg, if_false, Bool.not_eq_true] at hi ⊢
          cases i with
          | zero => simp
          | succ j =>
            simp only [List.getD_cons_succ, List.length_cons, Nat.succ_lt_succ_iff] at hi ⊢
            rw [ih (a + 1) j hi]
            congr 1
            omega
    | timeoutError msg =>
      rw [hb] at hi
      dsimp only at hi ⊢
      by_cases han : a = o.maxRetries
      · simp [han] at hi
      · simp only [han, if_neg, if_false] at hi ⊢
        cases i with
        | zero => simp
        | succ j =>
          simp only [List.getD_cons_succ, List.length_cons, Nat.succ_lt_succ_iff] at hi ⊢
          rw [ih (a + 1) j hi]
          congr 1
          omega
    | transportError msg =>
      rw [hb] at hi
      dsimp only at hi ⊢
      by_cases han : a = o.maxRetries
      · simp [han] at hi
      · simp only [han, if_neg, if_false] at hi ⊢
        cases i with
        | zero => simp
        | succ j =>
          simp only [List.getD_cons_succ, List.length_cons, Nat.succ_lt_succ_iff] at hi ⊢
          rw [ih (a + 1) j hi]
          congr 1
          omega

theorem fetch_first_nonretryable (o : RetryOptions) (b : Backend) (r : Response)
    (hb : b 0 = AttemptOutcome.response r)
    (hnr : isRetryableStatus r.status o.retryableStatusCodes = false) :
    fetch o b = { result := Except.ok r, attempts := 1, delays := [] } := by
  have hguard : (r.ok || !(isRetryableStatus r.status o.retryableStatusCodes)) = true := by
    simp [hnr]
  simp [fetch, fetchLoop, hb, hguard]

/-! ## Claim theorems: HTTP client -/

/-- C2: for every `maxRetries = N` and every backend that always
answers with a retryable, non-ok status, `HttpService.fetch` performs
exactly `N + 1` physical attempts and throws a `NetworkError` (so
`fetchJson` and `fetchText` also throw one); and for any backend at
all, the number of physical attempts never exceeds `maxRetries + 1`. -/
theorem httpFetch_retry_exhaustion (o : RetryOptions) (b : Backend)
    (h : alwaysRetryable o b) :
    (fetch o b).attempts = o.maxRetries + 1 ∧
    (∃ e, (fetch o b).result = Except.error e) ∧
    (∃ e, fetchJson o b = Except.error e) ∧
    (∃ e, fetchText o b = Except.error e) ∧
    ∀ b2 : Backend, (fetch o b2).attempts ≤ o.maxRetries + 1 := by
  obtain ⟨ha, e, he⟩ :=
    fetchLoop_alwaysRetryable o b h (o.maxRetries + 1) 0 (by omega)
  refine ⟨ha, ⟨e, he⟩, ⟨e, ?_⟩, ⟨e, ?_⟩, fun b2 => fetchLoop_attempts_le o b2 _ 0⟩
  · simp [fetchJson, fetch] at he ⊢
    rw [he]
  · simp [fetchText, fetch] at he ⊢
    rw [he]

/-- C2 witness: with `maxRetries = 3` and a backend that always
answers 500, there are exactly 4 attempts and all three operations
throw. -/
theorem httpFetch_retry_exhaustion_witness :
    (fetch o10 b500).attempts = 3 + 1 ∧
    (∃ e, (fetch o10 b500).result = Except.error e) ∧
    (∃ e, fetchJson o10 b500 = Except.error e) ∧
    (∃ e, fetchText o10 b500 = Except.error e) ∧
    ∀ b2 : Backend, (fetch o10 b2).attempts ≤ 3 + 1 :=
  httpFetch_retry_exhaustion o10 b500
    (fun k => ⟨{ status := 500, ok := false, body := "", jsonValid := true, textValid := true },
      rfl, rfl, by decide⟩)

/-- C5: a backend whose first response has a non-retryable status makes
`HttpService.fetch` perform exactly one physical attempt and return
that response directly, with no sleep and no throw. -/
theorem httpFetch_nonretryable_single_attempt (o : RetryOptions) (b : Backend)
    (r : Response) (hb : b 0 = AttemptOutcome.response r)
    (hnr : isRetryableStatus r.status o.retryableStatusCodes = false) :
    (fetch o b).result = Except.ok r ∧ (fetch o b).attempts = 1 ∧
    (fetch o b).delays = [] := by
  rw [fetch_first_nonretryable o b r hb hnr]
  exact ⟨rfl, rfl, rfl⟩

/-- C5 witness: a backend answering 404 on the first attempt. -/
theorem httpFetch_nonretryable_single_attempt_witness :
    (fetch o10 b404).result =
      Except.ok { status := 404, ok := false, body := "", jsonValid := true, textValid := true } ∧
    (fetch o10 b404).attempts = 1 ∧ (fetch o10 b404).delays = [] :=
  httpFetch_nonretryable_single_attempt o10 b404
    { status := 404, ok := false, body := "", jsonValid := true, textValid := true }
    rfl (by decide)

/-- C3: `fetch` returns a non-ok, non-retryable response as a normal
value; `fetchJson`/`fetchText` turn any non-ok response from the
underlying fetch into a thrown `NetworkError`; and a JSON parse failure
in `fetchJson` is also reported as a `NetworkError`. -/
theorem httpFetch_failure_contracts :
    (∀ (o : RetryOptions) (b : Backend) (r : Response),
      b 0 = AttemptOutcome.response r →
      isRetryableStatus r.status o.retryableStatusCodes = false →
      (fetch o b).result = Except.ok r) ∧
    (∀ (o : RetryOptions) (b : Backend) (r : Response),
      (fetch o b).result = Except.ok r → r.ok = false →
      (∃ e, fetchJson o b = Except.error e) ∧
      (∃ e, fetchText o b = Except.error e)) ∧
    (∀ (o : RetryOptions) (b : Backend) (r : Response),
      (fetch o b).result = Except.ok r → r.ok = true → r.jsonValid = false →
      ∃ e, fetchJson o b = Except.error e) := by
  refine ⟨?_, ?_, ?_⟩
  · intro o b r hb hnr
    rw [fetch_first_nonretryable o b r hb hnr]
  · intro o b r hr hok
    constructor
    · exact ⟨"Failed to fetch JSON: " ++ toString r.status, by simp [fetchJson, hr, hok]⟩
    · exact ⟨"Failed to fetch text: " ++ toString r.status, by simp [fetchText, hr, hok]⟩
  · intro o b r hr hok hj
    exact ⟨"Failed to parse JSON", by simp [fetchJson, hr, hok, hj]⟩

/-- C3 witness: a 404 backend exercises the first two conjuncts and a
200-with-invalid-JSON backend the third. -/
theorem httpFetch_failure_contracts_witness :
    (fetch o10 b404).result =
      Except.ok { status := 404, ok := false, body := "", jsonValid := true, textValid := true } ∧
    (∃ e, fetchJson o10 b404 = Except.error e) ∧
    (∃ e, fetchText o10 b404 = Except.error e) ∧
    (∃ e, fetchJson o10 b200badJson = Except.error e) := by
  have h1 := httpFetch_failure_contracts.1 o10 b404
    { status := 404, ok := false, body := "", jsonValid := true, textValid := true }
    rfl (by decide)
  have h2 := httpFetch_failure_contracts.2.1 o10 b404
    { status := 404, ok := false, body := "", jsonValid := true, textValid := true }
    h1 rfl
  have h3 := httpFetch_failure_contracts.2.2 o10 b200badJson
    { status := 200, ok := true, body := "nope", jsonValid := false, textValid := true }
    rfl rfl rfl
  exact ⟨h1, h2.1, h2.2, h3⟩

/-- C6: whenever `HttpService.fetch` decides to retry after attempt `i`
(0-based), the delay slept before attempt `i + 1` — the `i`-th entry of
the recorded delay list — equals
`min(initialDelay * backoffFactor ^ i, maxDelay)`. -/
theorem httpFetch_backoff_delay (o : RetryOptions) (b : Backend) (i : Nat)
    (hi : i < (fetch o b).delays.length) :
    (fetch o b).delays.getD i 0 =
      min (o.initialDelay * o.backoffFactor ^ i) o.maxDelay := by
  have := fetchLoop_delays_getD o b (o.maxRetries + 1) 0 i hi
  simpa [fetch, calculateDelay] using this

/-- C6 witness: with `initialDelay = 10`, `backoffFactor = 2` and an
always-500 backend, the delays after attempts 0, 1, 2 are 10, 20, 40. -/
theorem httpFetch_backoff_delay_witness :
    (fetch o10 b500).delays.getD 0 0 = 10 ∧
    (fetch o10 b500).delays.getD 1 0 = 20 ∧
    (fetch o10 b500).delays.getD 2 0 = 40 := by
  refine ⟨?_, ?_, ?_⟩
  · rw [httpFetch_backoff_delay o10 b500 0 (by decide)]; decide
  · rw [httpFetch_backoff_delay o10 b500 1 (by decide)]; decide
  · rw [httpFetch_backoff_delay o10 b500 2 (by decide)]; decide

/-- C7 counterexample: the claim quantifies over every numeric
configuration, but with `backoffFactor = 0` (initialDelay 10,
maxDelay 100) the delay after attempt 0 is 10 while the delay after
attempt 1 is 0, so the backoff is not monotonically non-decreasing. -/
theorem calculateDelay_monotone_counterexample :
    ¬ (∀ (initialDelay backoffFactor maxDelay i j : Nat), i ≤ j →
        calculateDelay i initialDelay backoffFactor maxDelay ≤
        calculateDelay j initialDelay backoffFactor maxDelay) := by
  intro h
  exact absurd (h 10 0 100 0 1 (by decide)) (by decide)

/-- C7 (amended): for every configuration with `backoffFactor ≥ 1`
(the default is 2) the computed backoff delay is monotonically
non-decreasing in the attempt index, until clamped at `maxDelay`. -/
theorem calculateDelay_monotone (initialDelay backoffFactor maxDelay i j : Nat)
    (hf : 1 ≤ backoffFactor) (hij : i ≤ j) :
    calculateDelay i initialDelay backoffFactor maxDelay ≤
      calculateDelay j initialDelay backoffFactor maxDelay := by
  unfold calculateDelay
  exact min_le_min (Nat.mul_le_mul_left _ (Nat.pow_le_pow_right hf hij)) le_rfl

/-- C7 witness: the default configuration (initialDelay 1000,
factor 2, maxDelay 10000) at attempts 2 ≤ 5. -/
theorem calculateDelay_monotone_witness :
    calculateDelay 2 1000 2 10000 ≤ calculateDelay 5 1000 2 10000 :=
  calculateDelay_monotone 1000 2 10000 2 5 (by decide) (by decide)

/-! ## Claim theorems: destination paths -/

/-- C10: the destination path depends on the file-kind tag: `js` files
always go to `resources/js/ui/<component>.js` and `css` files to
`resources/css/components/<component>.css`, both ignoring the
configured components path; only `blade` files (as
`<component>.blade.php`) and files of unrecognised type are placed
under the configured components path. -/
theorem getDestinationPath_by_kind :
    ∀ (component : CompMeta) (file : CompFile) (componentsPath : String),
      (file.type = "js" →
        getDestinationPath component file componentsPath =
          pathJoin "resources/js/ui" (component.name ++ ".js")) ∧
      (file.type = "css" →
        getDestinationPath component file componentsPath =
          pathJoin "resources/css/components" (component.name ++ ".css")) ∧
      (file.type = "blade" →
        getDestinationPath component file componentsPath =
          pathJoin componentsPath (component.name ++ ".blade.php")) ∧
      (file.type ≠ "js" → file.type ≠ "css" → file.type ≠ "blade" →
        getDestinationPath component file componentsPath =
          pathJoin componentsPath file.path) := by
  intro component file componentsPath
  refine ⟨?_, ?_, ?_, ?_⟩
  · intro h
    unfold getDestinationPath
    split <;> simp_all
  · intro h
    unfold getDestinationPath
    split <;> simp_all
  · intro h
    unfold getDestinationPath
    split <;> simp_all
  · intro h1 h2 h3
    unfold getDestinationPath
    split <;> simp_all

/-- C10 witness: a `js` file of component `button` lands in
`resources/js/ui` regardless of the configured path `views`. -/
theorem getDestinationPath_by_kind_witness :
    getDestinationPath { name := "button", files := [] }
        { path := "button.js", type := "js" } "views" =
      pathJoin "resources/js/ui" ("button" ++ ".js") :=
  (getDestinationPath_by_kind { name := "button", files := [] }
    { path := "button.js", type := "js" } "views").1 rfl

/-! ## Add-loop lemmas -/

theorem planFiles_exit_zero (env : Env) (fs : FS) (comp : CompMeta) :
    ∀ files planned skipped c,
      planFiles env fs comp files planned skipped = PlanOut.exit c → c = 0 := by
  intro files
  induction files with
  | nil =>
    intro planned skipped c h
    simp [planFiles] at h
  | cons file rest ih =>
    intro planned skipped c h
    simp only [planFiles] at h
    split at h
    · split at h
      · exact ih _ _ _ h
      · injection h with h1
        omega
      · split at h
        · simp at h
        · exact ih _ _ _ h
    · split at h
      · simp at h
      · exact ih _ _ _ h

theorem planComponents_exit_zero (env : Env) (fs : FS) :
    ∀ comps planned skipped c,
      planComponents env fs comps planned skipped = PlanOut.exit c → c = 0 := by
  intro comps
  induction comps with
  | nil =>
    intro planned skipped c h
    simp [planComponents] at h
  | cons comp rest ih =>
    intro planned skipped c h
    simp only [planComponents] at h
    split at h
    · injection h with h1
      exact (planFiles_exit_zero env fs comp comp.files planned skipped _ (by assumption)).symm ▸ h1.symm ▸ rfl
    · simp at h
    · exact ih _ _ _ h

theorem addComponent_exit (env : Env) (fs : FS) (name : String) (c : Nat) (fs1 : FS)
    (h : addComponent env fs name = CompOut.exit c fs1) : c = 0 ∧ fs1 = fs := by
  simp only [addComponent] at h
  split at h
  · simp at h
  · split at h
    · simp at h
    · split at h
      · rename_i heq
        injection h with h1 h2
        exact ⟨h1.symm.trans (planComponents_exit_zero env fs _ _ _ _ heq), h2.symm⟩
      · simp at h
      · split at h
        · simp at h
        · split at h <;> simp at h

/-! ## Claim theorems: add loop -/

/-- C4 counterexample: a `cancel` conflict choice halts the run, but
the source calls `process.exit(0)`: the process outcome is zero, not
non-zero as the claim states.  Concrete run: component `a` whose single
blade file conflicts with an existing destination and whose prompt
answers `cancel`. -/
theorem addComponents_cancel_exit_zero :
    addComponents wEnvCancel [("views/a.blade.php", "old")] ["a"] emptyResult =
      RunOut.exit 0 [("views/a.blade.php", "old")] := by
  rfl

/-- C4 (amended): whenever the conflict choice for an existing
destination is `cancel`, the whole multi-component add halts
immediately — the planning loop exits the process with code 0 (not a
non-zero code), the filesystem is unchanged for the current component
(no file has entered staging), and no remaining component is
processed. -/
theorem addComponent_cancel_halts :
    (∀ (env : Env) (fs : FS) (comp : CompMeta) (file : CompFile) (rest : List CompFile)
        (planned : List PlannedFile) (skipped : List String),
        fsExists fs (getDestinationPath comp file env.componentsPath) = true →
        env.choose file.path = Choice.cancel →
        planFiles env fs comp (file :: rest) planned skipped = PlanOut.exit 0) ∧
    (∀ (env : Env) (fs : FS) (name : String) (c : Nat) (fs1 : FS),
        addComponent env fs name = CompOut.exit c fs1 →
        c = 0 ∧ fs1 = fs ∧
        ∀ (restNames : List String) (acc : AddResult),
          addComponents env fs (name :: restNames) acc = RunOut.exit 0 fs) := by
  constructor
  · intro env fs comp file rest planned skipped hex hch
    simp [planFiles, hex, hch]
  · intro env fs name c fs1 h
    obtain ⟨hc, hfs⟩ := addComponent_exit env fs name c fs1 h
    subst hc
    subst hfs
    exact ⟨rfl, rfl, fun restNames acc => by simp [addComponents, h]⟩

/-- C4 witness for the amended claim: the concrete cancelling run. -/
theorem addComponent_cancel_halts_witness :
    planFiles wEnvCancel [("views/a.blade.php", "old")]
        { name := "a", files := [{ path := "a.blade.php", type := "blade" }] }
        [{ path := "a.blade.php", type := "blade" }] [] [] = PlanOut.exit 0 ∧
    addComponents wEnvCancel [("views/a.blade.php", "old")] ["a", "b"] emptyResult =
      RunOut.exit 0 [("views/a.blade.php", "old")] := by
  constructor
  · exact addComponent_cancel_halts.1 wEnvCancel [("views/a.blade.php", "old")]
      { name := "a", files := [{ path := "a.blade.php", type := "blade" }] }
      { path := "a.blade.php", type := "blade" } [] [] [] (by rfl) rfl
  · exact (addComponent_cancel_halts.2 wEnvCancel [("views/a.blade.php", "old")] "a" 0
      [("views/a.blade.php", "old")] (by rfl)).2.2 ["b"] emptyResult

/-- C8: a failure thrown while adding one component is caught and
recorded as a failed entry with that component's name and the error
message, and the remaining components are still processed; a failure
inside `applyFileBatch` is caught inside `addComponent` itself and
recorded as failed entries naming that component's files with the
error message, without throwing. -/
theorem addComponents_component_isolation :
    (∀ (env : Env) (fs : FS) (name : String) (restNames : List String)
        (acc : AddResult) (e : String) (fs1 : FS),
        addComponent env fs name = CompOut.thrown e fs1 →
        addComponents env fs (name :: restNames) acc =
          addComponents env fs1 restNames
            { added := acc.added, skipped := acc.skipped
              failed := acc.failed ++ [(name, e)] }) ∧
    (∀ (env : Env) (fs : FS) (names : List String) (acc : AddResult)
        (r : AddResult) (fsEnd : FS),
        addComponents env fs names acc = RunOut.done r fsEnd →
        ∀ x ∈ acc.failed, x ∈ r.failed) ∧
    (∀ (env : Env) (fs : FS) (name : String) (component : CompMeta)
        (comps : List CompMeta) (planned : List PlannedFile) (skipped : List String)
        (msg : String) (fs1 : FS),
        env.reg.fetchComponent name = Except.ok component →
        env.reg.resolveDependencies component = Except.ok comps →
        planComponents env fs comps [] [] = PlanOut.ok planned skipped →
        planned ≠ [] →
        applyFileBatch env.flt fs planned = Except.error (msg, fs1) →
        addComponent env fs name =
          CompOut.done
            { added := [], skipped := skipped
              failed := planned.map (fun f => (f.componentName ++ "/" ++ f.filePath, msg)) }
            fs1) := by
  refine ⟨?_, ?_, ?_⟩
  · intro env fs name restNames acc e fs1 h
    simp [addComponents, h]
  · intro env fs names
    induction names generalizing fs with
    | nil =>
      intro acc r fsEnd h x hx
      simp only [addComponents] at h
      injection h with h1 h2
      rw [← h1]
      exact hx
    | cons name rest ih =>
      intro acc r fsEnd h x hx
      simp only [addComponents] at h
      split at h
      · simp at h
      · exact ih _ _ _ _ h x (List.mem_append_left _ hx)
      · exact ih _ _ _ _ h x (List.mem_append_left _ hx)
  · intro env fs name component comps planned skipped msg fs1 h1 h2 h3 h4 h5
    have hne : planned.isEmpty = false := by
      cases planned with
      | nil => exact absurd rfl h4
      | cons a l => rfl
    simp [addComponent, h1, h2, h3, hne, h5]

/-- C8 witness: a registry whose metadata fetch throws records the
failure for component `a` and still processes component `b`; a batch
whose commit move fails records per-file failures without throwing. -/
theorem addComponents_component_isolation_witness :
    addComponents wEnvDown [] ["a", "b"] emptyResult =
      addComponents wEnvDown [] ["b"]
        { added := [], skipped := [], failed := [("a", "registry unreachable")] } ∧
    addComponent wEnvMoveFail [("views/a.blade.php", "old")] "a" =
      CompOut.done
        { added := [], skipped := []
          failed := [("a/a.blade.php", "EIO: move views/a.blade.php")] }
        [("views/a.blade.php", "old")] := by
  constructor
  · exact addComponents_component_isolation.1 wEnvDown [] "a" ["b"] emptyResult
      "registry unreachable" [] rfl
  · exact addComponents_component_isolation.2.2 wEnvMoveFail
      [("views/a.blade.php", "old")] "a"
      { name := "a", files := [{ path := "a.blade.php", type := "blade" }] }
      [{ name := "a", files := [{ path := "a.blade.php", type := "blade" }] }]
      [{ componentName := "a", filePath := "a.blade.php", fileType := "blade"
         destPath := "views/a.blade.php", content := "content", existedBefore := true }]
      [] "EIO: move views/a.blade.php" [("views/a.blade.php", "old")]
      rfl rfl (by rfl) (by simp) (by rfl)

/-! ## Path separation lemmas -/

theorem self_ne_tempPath (d : String) : d ≠ tempPath d := by
  intro h
  have hl := congrArg String.length h
  rw [tempPath, String.length_append] at hl
  have h10 : (".velar-tmp" : String).length = 10 := rfl
  omega

theorem self_ne_backupPath (d : String) : d ≠ backupPath d := by
  intro h
  have hl := congrArg String.length h
  rw [backupPath, String.length_append] at hl
  have h13 : (".velar-backup" : String).length = 13 := rfl
  omega

theorem tempPath_ne_backupPath (d : String) : tempPath d ≠ backupPath d := by
  intro h
  have hl := congrArg String.length h
  rw [tempPath, backupPath, String.length_append, String.length_append] at hl
  have h10 : (".velar-tmp" : String).length = 10 := rfl
  have h13 : (".velar-backup" : String).length = 13 := rfl
  omega

theorem opDisj_symmetric : Symmetric OpDisj := by
  intro f g h p hp q hq
  exact (h q hq p hp).symm

/-! ## Batch-writer phase lemmas -/

theorem stagePhase_ok_frame (flt : Faults) :
    ∀ (files : List PlannedFile) (fs : FS) (temps0 : List String)
      (fs1 : FS) (temps1 : List String) (p : String),
      stagePhase flt fs files temps0 = Except.ok (fs1, temps1) →
      (∀ f ∈ files, p ≠ tempPath f.destPath) →
      fsLookup fs1 p = fsLookup fs p := by
  intro files
  induction files with
  | nil =>
    intro fs temps0 fs1 temps1 p h hp
    simp only [stagePhase, Except.ok.injEq, Prod.mk.injEq] at h
    rw [← h.1]
  | cons f rest ih =>
    intro fs temps0 fs1 temps1 p h hp
    simp only [stagePhase] at h
    split at h
    · simp at h
    · have hrec := ih (fsWrite fs (tempPath f.destPath) f.content)
        (temps0 ++ [tempPath f.destPath]) fs1 temps1 p h
        (fun g hg => hp g (List.mem_cons_of_mem f hg))
      rw [hrec, fsLookup_fsWrite_ne _ _ _ _ (hp f (List.mem_cons_self _ _))]

theorem stagePhase_ok_temp (flt : Faults) :
    ∀ (files : List PlannedFile) (fs : FS) (temps0 : List String)
      (fs1 : FS) (temps1 : List String),
      stagePhase flt fs files temps0 = Except.ok (fs1, temps1) →
      List.Pairwise (fun g1 g2 => tempPath g1.destPath ≠ tempPath g2.destPath) files →
      ∀ f ∈ files, fsLookup fs1 (tempPath f.destPath) = some f.content := by
  intro files
  induction files with
  | nil =>
    intro fs temps0 fs1 temps1 h hpw f hf
    simp at hf
  | cons g rest ih =>
    intro fs temps0 fs1 temps1 h hpw f hf
    rw [List.pairwise_cons] at hpw
    simp only [stagePhase] at h
    split at h
    · simp at h
    · rcases List.mem_cons.mp hf with hfg | hfr
      · subst hfg
        have hframe := stagePhase_ok_frame flt rest
          (fsWrite fs (tempPath f.destPath) f.content)
          (temps0 ++ [tempPath f.destPath]) fs1 temps1 (tempPath f.destPath) h
          (fun x hx => hpw.1 x hx)
        rw [hframe, fsLookup_fsWrite_self]
      · exact ih _ _ _ _ h hpw.2 f hfr

theorem backupPhase_ok_frame (flt : Faults) :
    ∀ (files : List PlannedFile) (fs fs1 : FS) (p : String),
      backupPhase flt fs files = Except.ok fs1 →
      (∀ f ∈ files, f.existedBefore = true → p ≠ backupPath f.destPath) →
      fsLookup fs1 p = fsLookup fs p := by
  intro files
  induction files with
  | nil =>
    intro fs fs1 p h hp
    simp only [backupPhase, Except.ok.injEq] at h
    rw [h]
  | cons f rest ih =>
    intro fs fs1 p h hp
    simp only [backupPhase] at h
    split at h
    · rename_i hex
      split at h
      · simp at h
      · split at h
        · simp at h
        · rename_i fs2 heq
          unfold createFileBackup at heq
          split at heq
          · rename_i c hc
            injection heq with heq1
            have hrec := ih fs2 fs1 p h (fun g hg hge => hp g (List.mem_cons_of_mem f hg) hge)
            rw [hrec, ← heq1, fsLookup_fsWrite_ne _ _ _ _ (hp f (List.mem_cons_self _ _) hex)]
          · simp at heq
    · exact (ih fs fs1 p h (fun g hg hge => hp g (List.mem_cons_of_mem f hg) hge))

theorem commitPhase_ok_frame (flt : Faults) :
    ∀ (files : List PlannedFile) (fs fs1 : FS) (p : String),
      commitPhase flt fs files = Except.ok fs1 →
      (∀ f ∈ files, p ≠ f.destPath ∧ p ≠ tempPath f.destPath) →
      fsLookup fs1 p = fsLookup fs p := by
  intro files
  induction files with
  | nil =>
    intro fs fs1 p h hp
    simp only [commitPhase, Except.ok.injEq] at h
    rw [h]
  | cons f rest ih =>
    intro fs fs1 p h hp
    simp only [commitPhase] at h
    split at h
    · simp at h
    · rename_i c hc
      split at h
      · simp at h
      · have hrec := ih _ fs1 p h (fun g hg => hp g (List.mem_cons_of_mem f hg))
        rw [hrec, fsLookup_fsErase_ne _ _ _ (hp f (List.mem_cons_self _ _)).2,
          fsLookup_fsWrite_ne _ _ _ _ (hp f (List.mem_cons_self _ _)).1]

theorem commitPhase_ok_dest (flt : Faults) :
    ∀ (files : List PlannedFile) (fs fs1 : FS),
      commitPhase flt fs files = Except.ok fs1 →
      List.Pairwise OpDisj files →
      ∀ f ∈ files, fsLookup fs1 f.destPath = fsLookup fs (tempPath f.destPath) := by
  intro files
  induction files with
  | nil =>
    intro fs fs1 h hpw f hf
    simp at hf
  | cons g rest ih =>
    intro fs fs1 h hpw f hf
    rw [List.pairwise_cons] at hpw
    simp only [commitPhase] at h
    split at h
    · simp at h
    · rename_i c hc
      split at h
      · simp at h
      · rcases List.mem_cons.mp hf with hfg | hfr
        · subst hfg
          have hframe := commitPhase_ok_frame flt rest _ fs1 f.destPath h
            (fun x hx =>
              ⟨hpw.1 x hx f.destPath (by simp [opPaths]) x.destPath (by simp [opPaths]),
               hpw.1 x hx f.destPath (by simp [opPaths]) (tempPath x.destPath) (by simp [opPaths])⟩)
          rw [hframe, fsLookup_fsErase_ne _ _ _ (self_ne_tempPath f.destPath),
            fsLookup_fsWrite_self, hc]
        · have hrec := ih _ fs1 h hpw.2 f hfr
          rw [hrec, fsLookup_fsErase_ne _ _ _ ?hne1, fsLookup_fsWrite_ne _ _ _ _ ?hne2]
          case hne1 =>
            exact (hpw.1 f hfr (tempPath g.destPath) (by simp [opPaths])
              (tempPath f.destPath) (by simp [opPaths])).symm
          case hne2 =>
            exact (hpw.1 f hfr g.destPath (by simp [opPaths])
              (tempPath f.destPath) (by simp [opPaths])).symm

theorem commitPhase_ok_tempNone (flt : Faults) :
    ∀ (files : List PlannedFile) (fs fs1 : FS),
      commitPhase flt fs files = Except.ok fs1 →
      List.Pairwise OpDisj files →
      ∀ f ∈ files, fsLookup fs1 (tempPath f.destPath) = none := by
  intro files
  induction files with
  | nil =>
    intro fs fs1 h hpw f hf
    simp at hf
  | cons g rest ih =>
    intro fs fs1 h hpw f hf
    rw [List.pairwise_cons] at hpw
    simp only [commitPhase] at h
    split at h
    · simp at h
    · rename_i c hc
      split at h
      · simp at h
      · rcases List.mem_cons.mp hf with hfg | hfr
        · subst hfg
          have hframe := commitPhase_ok_frame flt rest _ fs1 (tempPath f.destPath) h
            (fun x hx =>
              ⟨hpw.1 x hx (tempPath f.destPath) (by simp [opPaths]) x.destPath (by simp [opPaths]),
               hpw.1 x hx (tempPath f.destPath) (by simp [opPaths])
                 (tempPath x.destPath) (by simp [opPaths])⟩)
          rw [hframe, fsLookup_fsErase_self]
        · exact ih _ fs1 h hpw.2 f hfr

theorem cleanupBackups_frame :
    ∀ (files : List PlannedFile) (fs : FS) (p : String),
      (∀ f ∈ files, f.existedBefore = true → p ≠ backupPath f.destPath) →
      fsLookup (cleanupBackups fs files) p = fsLookup fs p := by
  intro files
  induction files with
  | nil =>
    intro fs p hp
    rfl
  | cons f rest ih =>
    intro fs p hp
    simp only [cleanupBackups, List.foldl_cons] at ih ⊢
    by_cases hex : f.existedBefore = true
    · rw [hex]
      simp only [if_true]
      rw [ih _ p (fun g hg hge => hp g (List.mem_cons_of_mem f hg) hge),
        deleteFileBackup, fsLookup_fsErase_ne _ _ _ (hp f (List.mem_cons_self _ _) hex)]
    · rw [Bool.not_eq_true] at hex
      rw [hex]
      simp only [Bool.false_eq_true, if_false]
      exact ih fs p (fun g hg hge => hp g (List.mem_cons_of_mem f hg) hge)

theorem cleanupBackups_none :
    ∀ (files : List PlannedFile) (fs : FS) (p : String),
      fsLookup fs p = none → fsLookup (cleanupBackups fs files) p = none := by
  intro files
  induction files with
  | nil =>
    intro fs p h
    exact h
  | cons f rest ih =>
    intro fs p h
    simp only [cleanupBackups, List.foldl_cons] at ih ⊢
    by_cases hex : f.existedBefore = true
    · rw [hex]
      simp only [if_true]
      exact ih _ p (fsLookup_none_fsErase fs _ p h)
    · rw [Bool.not_eq_true] at hex
      rw [hex]
      simp only [Bool.false_eq_true, if_false]
      exact ih fs p h

theorem cleanupBackups_erases :
    ∀ (files : List PlannedFile) (fs : FS) (f : PlannedFile),
      f ∈ files → f.existedBefore = true →
      fsLookup (cleanupBackups fs files) (backupPath f.destPath) = none := by
  intro files
  induction files with
  | nil =>
    intro fs f hf
    simp at hf
  | cons g rest ih =>
    intro fs f hf hex
    simp only [cleanupBackups, List.foldl_cons] at ih ⊢
    rcases List.mem_cons.mp hf with hfg | hfr
    · subst hfg
      rw [hex]
      simp only [if_true]
      exact cleanupBackups_none rest _ _ (fsLookup_fsErase_self fs _)
    · exact ih _ f hfr hex

/-! ## Claim theorems: batch writer -/

/-- C9 counterexample: the claim quantifies over every batch, but when
one operation's destination path equals another operation's temp path
(destinations `"x.velar-tmp"` and `"x"`), `applyFileBatch` returns
normally while the destination `"x"` holds the other operation's
content `"ca"` instead of its planned content `"cb"`, and the
destination `"x.velar-tmp"` ends up absent. -/
theorem applyFileBatch_aliasing_counterexample :
    ∃ fs1, applyFileBatch noFaults [] [c9A, c9B] = Except.ok fs1 ∧
      fsLookup fs1 c9B.destPath ≠ some c9B.content ∧
      fsLookup fs1 c9A.destPath = none :=
  ⟨[("x", "ca")], rfl, by decide, rfl⟩

/-- C9 (amended): for every batch whose operations touch pairwise
disjoint path sets (no destination collides with another operation's
destination, temp or backup path — true of any real component batch),
if `applyFileBatch` returns normally then every destination holds its
planned content, no temp file remains, the backup of every
previously-existing destination is deleted, and no backup artifact was
created for fresh destinations. -/
theorem applyFileBatch_success_invariant (flt : Faults) (fs : FS)
    (files : List PlannedFile) (fs1 : FS)
    (hsep : List.Pairwise OpDisj files)
    (hok : applyFileBatch flt fs files = Except.ok fs1) :
    ∀ f ∈ files,
      fsLookup fs1 f.destPath = some f.content ∧
      fsLookup fs1 (tempPath f.destPath) = none ∧
      (f.existedBefore = true → fsLookup fs1 (backupPath f.destPath) = none) ∧
      (f.existedBefore = false →
        fsLookup fs1 (backupPath f.destPath) = fsLookup fs (backupPath f.destPath)) := by
  intro f hf
  have hall : ∀ g ∈ files, g ≠ f → OpDisj f g := by
    intro g hg hgf
    exact hsep.forall opDisj_symmetric hf hg (fun hh => hgf hh.symm)
  cases hstage : stagePhase flt fs files [] with
  | error eo =>
    simp only [applyFileBatch, hstage] at hok
    exact Except.noConfusion hok
  | ok st =>
    obtain ⟨fsS, temps⟩ := st
    cases hback : backupPhase flt fsS files with
    | error eb =>
      simp only [applyFileBatch, hstage, hback] at hok
      exact Except.noConfusion hok
    | ok fsB =>
      cases hcommit : commitPhase flt fsB files with
      | error ec =>
        simp only [applyFileBatch, hstage, hback, hcommit] at hok
        exact Except.noConfusion hok
      | ok fsC =>
        simp only [applyFileBatch, hstage, hback, hcommit, Except.ok.injEq] at hok
        subst hok
        have hTempNe :
            List.Pairwise (fun g1 g2 => tempPath g1.destPath ≠ tempPath g2.destPath) files :=
          hsep.imp (fun hab =>
            hab _ (by simp [opPaths]) _ (by simp [opPaths]))
        have hypDestBp : ∀ g ∈ files, g.existedBefore = true →
            f.destPath ≠ backupPath g.destPath := by
          intro g hg hge
          by_cases hgf : g = f
          · subst hgf
            exact self_ne_backupPath g.destPath
          · exact hall g hg hgf f.destPath (by simp [opPaths])
              (backupPath g.destPath) (by simp [opPaths])
        have hypTpBp : ∀ g ∈ files, g.existedBefore = true →
            tempPath f.destPath ≠ backupPath g.destPath := by
          intro g hg hge
          by_cases hgf : g = f
          · subst hgf
            exact tempPath_ne_backupPath g.destPath
          · exact hall g hg hgf (tempPath f.destPath) (by simp [opPaths])
              (backupPath g.destPath) (by simp [opPaths])
        refine ⟨?_, ?_, ?_, ?_⟩
        · rw [cleanupBackups_frame files fsC f.destPath hypDestBp,
            commitPhase_ok_dest flt files fsB fsC hcommit hsep f hf,
            backupPhase_ok_frame flt files fsS fsB (tempPath f.destPath) hback hypTpBp,
            stagePhase_ok_temp flt files fs [] fsS temps hstage hTempNe f hf]
        · rw [cleanupBackups_frame files fsC (tempPath f.destPath) hypTpBp,
            commitPhase_ok_tempNone flt files fsB fsC hcommit hsep f hf]
        · intro hex
          exact cleanupBackups_erases files fsC f hf hex
        · intro hex
          have hypBpBp : ∀ g ∈ files, g.existedBefore = true →
              backupPath f.destPath ≠ backupPath g.destPath := by
            intro g hg hge
            by_cases hgf : g = f
            · subst hgf
              rw [hex] at hge
              simp at hge
            · exact hall g hg hgf (backupPath f.destPath) (by simp [opPaths])
                (backupPath g.destPath) (by simp [opPaths])
          have hypBpCommit : ∀ g ∈ files,
              backupPath f.destPath ≠ g.destPath ∧
              backupPath f.destPath ≠ tempPath g.destPath := by
            intro g hg
            by_cases hgf : g = f
            · subst hgf
              exact ⟨(self_ne_backupPath g.destPath).symm,
                (tempPath_ne_backupPath g.destPath).symm⟩
            · exact ⟨hall g hg hgf (backupPath f.destPath) (by simp [opPaths])
                  g.destPath (by simp [opPaths]),
                hall g hg hgf (backupPath f.destPath) (by simp [opPaths])
                  (tempPath g.destPath) (by simp [opPaths])⟩
          have hypBpStage : ∀ g ∈ files, backupPath f.destPath ≠ tempPath g.destPath :=
            fun g hg => (hypBpCommit g hg).2
          rw [cleanupBackups_frame files fsC (backupPath f.destPath) hypBpBp,
            commitPhase_ok_frame flt files fsB fsC (backupPath f.destPath) hcommit hypBpCommit,
            backupPhase_ok_frame flt files fsS fsB (backupPath f.destPath) hback hypBpBp,
            stagePhase_ok_frame flt files fs [] fsS temps (backupPath f.destPath) hstage hypBpStage]

/-- C9 witness for the amended claim: a two-operation batch (an
overwritten blade file and a fresh js file) with separated paths;
after the normal return the destinations hold the new contents and no
temp or backup artifact remains. -/
theorem applyFileBatch_success_invariant_witness :
    (fsLookup [("views/card.blade.php", "newcard"), ("resources/js/ui/card.js", "newjs")]
        w9A.destPath = some w9A.content ∧
      fsLookup [("views/card.blade.php", "newcard"), ("resources/js/ui/card.js", "newjs")]
        (tempPath w9A.destPath) = none ∧
      (w9A.existedBefore = true →
        fsLookup [("views/card.blade.php", "newcard"), ("resources/js/ui/card.js", "newjs")]
          (backupPath w9A.destPath) = none) ∧
      (w9A.existedBefore = false →
        fsLookup [("views/card.blade.php", "newcard"), ("resources/js/ui/card.js", "newjs")]
          (backupPath w9A.destPath) =
        fsLookup [("views/card.blade.php", "oldcard")] (backupPath w9A.destPath))) ∧
    (fsLookup [("views/card.blade.php", "newcard"), ("resources/js/ui/card.js", "newjs")]
        w9B.destPath = some w9B.content ∧
      fsLookup [("views/card.blade.php", "newcard"), ("resources/js/ui/card.js", "newjs")]
        (tempPath w9B.destPath) = none ∧
      (w9B.existedBefore = true →
        fsLookup [("views/card.blade.php", "newcard"), ("resources/js/ui/card.js", "newjs")]
          (backupPath w9B.destPath) = none) ∧
      (w9B.existedBefore = false →
        fsLookup [("views/card.blade.php", "newcard"), ("resources/js/ui/card.js", "newjs")]
          (backupPath w9B.destPath) =
        fsLookup [("views/card.blade.php", "oldcard")] (backupPath w9B.destPath))) := by
  have h := applyFileBatch_success_invariant noFaults [("views/card.blade.php", "oldcard")]
    [w9A, w9B] [("views/card.blade.php", "newcard"), ("resources/js/ui/card.js", "newjs")]
    (by decide) (by rfl)
  exact ⟨h w9A (by decide), h w9B (by decide)⟩

/-- C1: evaluation of `applyFileBatch` at the failing input.  The one
operation targets the pre-existing destination `"a"` (content
`"old"`), and its staging write throws; the catch-block rollback
deletes the destination (no backup exists yet at that phase, so
`restoreFileBackup` is a no-op) and after the rollback the destination
is absent instead of holding `"old"` — contradicting the claimed (and
specified, §4.2) restore-to-pre-call-state guarantee. -/
theorem applyFileBatch_staging_failure_destroys_original :
    fsLookup [("a", "old")] "a" = some "old" ∧
    ∃ msg fs1,
      applyFileBatch c1Faults [("a", "old")] [c1File] = Except.error (msg, fs1) ∧
      fsLookup fs1 "a" = none :=
  ⟨rfl, "EIO: write a.velar-tmp", [], rfl, rfl⟩

end Velar
